import Mathlib

/-- A customer as delivered by the remote directory API
(`PosabitCustomer` in `src/electron/services/posabit.ts`). Only the fields
the cache persists are modelled. -/
structure PosabitCustomer where
  id : Nat
  first_name : String
  last_name : String
  telephone : Option String
  email : Option String
  loyalty_member : Bool
  deriving DecidableEq, Repr

/-- A row of the `customers` table (`DbCustomer` in `database.ts`).
`loyalty_member` is stored as SQLite 0/1, modelled as `Bool`. -/
structure DbCustomer where
  id : Nat
  first_name : String
  last_name : String
  telephone : Option String
  email : Option String
  loyalty_member : Bool
  venue_id : String
  synced_at : String
  deriving DecidableEq, Repr

/-- The `customers` table. -/
abbrev CustomerTable := List DbCustomer

/-- JavaScript `x || null` on an optional string: the empty string is falsy
and collapses to `null`. -/
def jsOrNull : Option String → Option String
  | some t => if t = "" then none else some t
  | none => none

/-- The row bound by `upsertCustomers`' prepared statement:
`(customer.id, customer.first_name || '', customer.last_name || '',
customer.telephone || null, customer.email || null,
customer.loyalty_member ? 1 : 0, venueId, syncedAt)`. -/
def rowOfCustomer (c : PosabitCustomer) (venueId syncedAt : String) : DbCustomer :=
  { id := c.id
    first_name := c.first_name
    last_name := c.last_name
    telephone := jsOrNull c.telephone
    email := jsOrNull c.email
    loyalty_member := c.loyalty_member
    venue_id := venueId
    synced_at := syncedAt }

/-- SQLite `INSERT OR REPLACE INTO customers`: every existing row that
conflicts with the new row on a uniqueness constraint is deleted, then the
new row is inserted.  The schema (`initDatabase`) declares
`id INTEGER PRIMARY KEY` and `UNIQUE(id, venue_id)`; a stored row conflicts
with the new one exactly when it has the same `id` (the composite
constraint is subsumed by the primary key on `id` alone). -/
def insertOrReplace (t : CustomerTable) (r : DbCustomer) : CustomerTable :=
  (t.filter fun q => q.id != r.id) ++ [r]

/-- `upsertCustomers(customers, venueId)` from `database.ts`: one
transaction running the `INSERT OR REPLACE` statement per record.
`syncedAt` is the single `new Date().toISOString()` taken at the start of
the call. (The source returns `items.length` as the count; the count plays
no role in the verified properties, so only the table is returned.) -/
def upsertCustomers (customers : List PosabitCustomer) (venueId syncedAt : String)
    (t : CustomerTable) : CustomerTable :=
  customers.foldl (fun acc c => insertOrReplace acc (rowOfCustomer c venueId syncedAt)) t

/-- `getCustomerCount(venueId)`: `SELECT COUNT(*) FROM customers WHERE venue_id = ?`. -/
def getCustomerCount (venueId : String) (t : CustomerTable) : Nat :=
  (t.filter fun r => r.venue_id == venueId).length

/-- `normalizePhone(phone)`: `phone.replace(/\D/g, '').slice(-10)` —
strip non-digits, keep the trailing 10. -/
def normalizePhone (phone : String) : String :=
  String.mk (((phone.data.filter Char.isDigit).reverse.take 10).reverse)

/-- The SQL predicate `telephone LIKE '%<suffix>'` for a digits-only
`suffix` (LIKE on digits is plain suffix matching; a NULL telephone never
matches). -/
def telLike (telephone : Option String) (suffix : String) : Bool :=
  match telephone with
  | none => false
  | some t => suffix.data.isSuffixOf t.data

/-- `getCustomerByPhone(phone, venueId)`:
`SELECT * FROM customers WHERE telephone LIKE ? AND venue_id = ? LIMIT 1`
with parameter `'%' + normalizePhone(phone)`.  `LIMIT 1` without
`ORDER BY` is modelled as the first matching row in table order. -/
def getCustomerByPhone (phone venueId : String) (t : CustomerTable) : Option DbCustomer :=
  (t.filter fun r => telLike r.telephone (normalizePhone phone) && r.venue_id == venueId).head?

/-- A row of the `offline_queue` table (`OfflineQueueEntry` in
`database.ts`). `synced` is stored as SQLite 0/1, modelled as `Bool`. -/
structure QueueRow where
  id : Nat
  name : String
  phone : Option String
  method : String
  customer_id : Option Nat
  venue_id : String
  created_at : String
  synced : Bool
  deriving DecidableEq, Repr

/-- The `offline_queue` table. -/
abbrev QueueTable := List QueueRow

/-- The insert payload of `addOfflineQueueEntry`
(`Omit<OfflineQueueEntry, 'id' | 'synced'>`). -/
structure QueueEntryData where
  name : String
  phone : Option String
  method : String
  customer_id : Option Nat
  venue_id : String
  created_at : String
  deriving DecidableEq, Repr

/-- JavaScript `x || null` on an optional number: `0` is falsy. -/
def jsOrNullNat : Option Nat → Option Nat
  | some n => if n = 0 then none else some n
  | none => none

/-- SQLite `AUTOINCREMENT`: the next `id` is larger than every id ever
used; with no deletions this is `max + 1`. -/
def nextQueueId (t : QueueTable) : Nat :=
  (t.foldl (fun m e => max m e.id) 0) + 1

/-- `addOfflineQueueEntry(data)` from `database.ts`: inserts the row with
`synced = 0`, binding `data.phone || null`, `data.customer_id || null` and
`data.created_at || new Date().toISOString()`; returns `lastInsertRowid`. -/
def addOfflineQueueEntry (d : QueueEntryData) (now : String) (t : QueueTable) :
    QueueTable × Nat :=
  let i := nextQueueId t
  (t ++ [{ id := i
           name := d.name
           phone := jsOrNull d.phone
           method := d.method
           customer_id := jsOrNullNat d.customer_id
           venue_id := d.venue_id
           created_at := if d.created_at = "" then now else d.created_at
           synced := false }], i)

/-- `getUnsyncedEntries(venueId)`:
`SELECT * FROM offline_queue WHERE venue_id = ? AND synced = 0 ORDER BY created_at ASC`.
The sort is modelled by the stable `List.mergeSort` on the ISO-8601
`created_at` strings. -/
def getUnsyncedEntries (venueId : String) (t : QueueTable) : List QueueRow :=
  (t.filter fun e => e.venue_id == venueId && e.synced == false).mergeSort
    (fun a b => decide (a.created_at ≤ b.created_at))

/-- `markEntrySynced(id)`: `UPDATE offline_queue SET synced = 1 WHERE id = ?`. -/
def markEntrySynced (i : Nat) (t : QueueTable) : QueueTable :=
  t.map fun e => if e.id = i then { e with synced := true } else e

/-- One page of `GET /venue/customers` (`CustomerResponse` in
`posabit.ts`), already JSON-decoded and with the per-item
`{ customer: {...} }` wrapper unwrapped. -/
structure CustomerResponse where
  total_records : Nat
  total_pages : Nat
  customers : List PosabitCustomer
  deriving DecidableEq, Repr

/-- The remote directory, one `fetchCustomers({page, perPage: 100, ...})`
call per page number; `.error` models a thrown fetch error
(non-2xx status or network failure). -/
abbrev FetchOracle := Nat → Except Unit CustomerResponse

/-- Result of `PosabitService.fetchAllCustomers`: the buffered list of all
fetched customers, the `(current, total)` arguments of each `onProgress`
callback in order, and the number of page fetches issued.  `failed` is a
thrown fetch error escaping the method. -/
inductive FetchAllOutcome where
  | ok (customers : List PosabitCustomer) (progressLog : List (Nat × Nat)) (fetches : Nat)
  | failed (progressLog : List (Nat × Nat)) (fetches : Nat)
  deriving DecidableEq, Repr

/-- The `do ... while (page <= totalPages)` loop of `fetchAllCustomers`:
fetch the page, append its records to the in-memory buffer, report
progress `(allCustomers.length, response.total_records)`, increment
`page`, continue while `page <= response.total_pages`.  `fuel` bounds the
number of iterations (`none` = fuel exhausted; the source loop has no
other exit). -/
def fetchAllGo (fetch : FetchOracle) :
    Nat → Nat → List PosabitCustomer → List (Nat × Nat) → Nat → Option FetchAllOutcome
  | 0, _, _, _, _ => none
  | fuel + 1, page, acc, log, n =>
    match fetch page with
    | .error _ => some (.failed log (n + 1))
    | .ok resp =>
      let acc2 := acc ++ resp.customers
      let log2 := log ++ [(acc2.length, resp.total_records)]
      if page + 1 ≤ resp.total_pages then
        fetchAllGo fetch fuel (page + 1) acc2 log2 (n + 1)
      else
        some (.ok acc2 log2 (n + 1))

/-- `PosabitService.fetchAllCustomers(onProgress)`: starts at page 1 with
an empty buffer. -/
def fetchAllCustomers (fetch : FetchOracle) (fuel : Nat) : Option FetchAllOutcome :=
  fetchAllGo fetch fuel 1 [] [] 0

/-- The observable state of a `SyncService` instance plus the pieces of
persistent state it owns: the `_isSyncing` flag, the electron-store
`lastSyncTime` checkpoint, the `_customerCount` and `_progress` fields,
and the `customers` table it writes through `database.ts`. -/
structure SyncState where
  isSyncing : Bool
  lastSyncTime : Option String
  customerCount : Nat
  progress : Option (Nat × Nat)
  customers : CustomerTable
  deriving DecidableEq, Repr

/-- The `_progress` field after a sequence of `sendProgress` events:
the last event sent, if any. -/
def lastProgress (log : List (Nat × Nat)) (p : Option (Nat × Nat)) : Option (Nat × Nat) :=
  match log.getLast? with
  | some x => some x
  | none => p

/-- `SyncService.fullSync()` (the `force-sync` IPC entry point).
Returns the post-call state, the number of page fetches issued, and the
progress events sent.  Guard: if `_isSyncing` is already true, log and
return immediately.  Otherwise buffer every page via `fetchAllCustomers`,
then upsert the whole buffer in one `upsertCustomers` call, refresh
`_customerCount`, set `lastSyncTime` to now, and send `sync-complete`
(which clears `_progress`).  A fetch error propagates (re-thrown after
logging) with the `finally` block clearing `_isSyncing`; nothing is
upserted and `lastSyncTime` is untouched, while `_progress` keeps the last
value `sendProgress` gave it. `none` = loop fuel exhausted. -/
def fullSync (fetch : FetchOracle) (venueId now : String) (fuel : Nat) (s : SyncState) :
    Option (SyncState × Nat × List (Nat × Nat)) :=
  if s.isSyncing then some (s, 0, [])
  else
    match fetchAllCustomers fetch fuel with
    | none => none
    | some (.ok cs log n) =>
      let t := upsertCustomers cs venueId now s.customers
      some ({ isSyncing := false
              lastSyncTime := some now
              customerCount := getCustomerCount venueId t
              progress := none
              customers := t }, n, log)
    | some (.failed log n) =>
      some ({ s with isSyncing := false, progress := lastProgress log s.progress }, n, log)

/-- Outcome of the incremental `while (hasMore)` loop: the customers table
after the per-page streaming upserts, and the number of fetches issued.
`failed` is a caught fetch error. -/
inductive IncrementalOutcome where
  | ok (t : CustomerTable) (fetches : Nat)
  | failed (t : CustomerTable) (fetches : Nat)
  deriving DecidableEq, Repr

/-- The page loop of `SyncService.incrementalSync()`: fetch the page, and
if it is non-empty upsert it immediately (streaming), then
`hasMore = page < response.total_pages; page++`.  In the source each
page's `upsertCustomers` call takes its own `new Date()`; the stated
properties do not depend on the timestamp values, so one `now` stands for
all of them. `fuel` bounds the iterations. -/
def incrementalGo (fetch : FetchOracle) (venueId now : String) :
    Nat → Nat → CustomerTable → Nat → Option IncrementalOutcome
  | 0, _, _, _ => none
  | fuel + 1, page, t, n =>
    match fetch page with
    | .error _ => some (.failed t (n + 1))
    | .ok resp =>
      let t2 := if 0 < resp.customers.length then upsertCustomers resp.customers venueId now t else t
      if page + 1 ≤ resp.total_pages then
        incrementalGo fetch venueId now fuel (page + 1) t2 (n + 1)
      else
        some (.ok t2 (n + 1))

/-- `SyncService.incrementalSync()`.  Guard: no-op if `_isSyncing`.
If no `lastSyncTime` checkpoint exists, delegate to `fullSync`.
Otherwise run the page loop from page 1; on success refresh
`_customerCount` and advance `lastSyncTime` to now; a fetch error is
caught and logged — the pass ends with `lastSyncTime`, `_customerCount`
and `_progress` untouched, keeping the upserts of the pages that had
already succeeded. -/
def incrementalSync (fetch : FetchOracle) (venueId now : String) (fuel : Nat) (s : SyncState) :
    Option (SyncState × Nat × List (Nat × Nat)) :=
  if s.isSyncing then some (s, 0, [])
  else
    match s.lastSyncTime with
    | none => fullSync fetch venueId now fuel s
    | some _ =>
      match incrementalGo fetch venueId now fuel 1 s.customers 0 with
      | none => none
      | some (.ok t n) =>
        some ({ s with isSyncing := false
                       customerCount := getCustomerCount venueId t
                       lastSyncTime := some now
                       customers := t }, n, [])
      | some (.failed t n) =>
        some ({ s with isSyncing := false, customers := t }, n, [])

/-- `SyncService.syncOfflineQueue()`: list the venue's unsynced entries in
`created_at` order; for each, attempt `posabit.addToQueue`; on success
`markEntrySynced(entry.id)`, on a thrown error log and continue with the
remaining entries.  `submit` is the remote oracle (`true` = the POST
succeeded).  Returns the outbox table afterwards and the ids marked
synced, in marking order. -/
def syncOfflineQueue (submit : QueueRow → Bool) (venueId : String) (t : QueueTable) :
    QueueTable × List Nat :=
  (getUnsyncedEntries venueId t).foldl
    (fun acc e => if submit e then (markEntrySynced e.id acc.1, acc.2 ++ [e.id]) else acc)
    (t, [])

/-- Reply of the `add-to-queue` IPC handler: either the remote's result,
or `{ offline: true }` with the optional caught error message. -/
inductive AddToQueueReply (ρ : Type) where
  | result (r : ρ)
  | offline (err : Option String)
  deriving DecidableEq, Repr

/-- The `add-to-queue` IPC handler in `main.ts`: if no `posabitService` is
configured, enqueue offline and reply `{ offline: true }`; otherwise try
`posabitService.addToQueue(data)` and return its result, falling back to
the offline enqueue with `{ offline: true, error }` when it throws. -/
def handleAddToQueue {ρ : Type} (svc : Option (QueueEntryData → Except String ρ))
    (d : QueueEntryData) (now : String) (t : QueueTable) :
    AddToQueueReply ρ × QueueTable :=
  match svc with
  | none => (.offline none, (addOfflineQueueEntry d now t).1)
  | some submit =>
    match submit d with
    | .ok r => (.result r, t)
    | .error e => (.offline (some e), (addOfflineQueueEntry d now t).1)

/-- A sync-service state that is mid-pass (used to exercise the guard). -/
def busyState : SyncState :=
  { isSyncing := true, lastSyncTime := none, customerCount := 0, progress := none,
    customers := [] }

/-- An idle state holding checkpoint `"t0"` over an empty cache. -/
def checkpointedState : SyncState :=
  { isSyncing := false, lastSyncTime := some "t0", customerCount := 0, progress := none,
    customers := [] }

/-- A remote whose page 1 succeeds with one record and whose page 2 (of a
reported 2) raises a fetch error. -/
def fetchOnePageThenFail : FetchOracle := fun p =>
  if p = 1 then
    .ok { total_records := 2, total_pages := 2,
          customers := [{ id := 7, first_name := "A", last_name := "B", telephone := none,
                          email := none, loyalty_member := false }] }
  else .error ()

/-- An idle sync-service state over an empty cache with no checkpoint. -/
def idleEmptyState : SyncState :=
  { isSyncing := false, lastSyncTime := none, customerCount := 0, progress := none,
    customers := [] }

/-- A concrete check-in payload. -/
def sampleCheckIn : QueueEntryData :=
  { name := "Jane Doe", phone := some "5095550182", method := "phone", customer_id := none,
    venue_id := "venue", created_at := "2026-01-01T00:00:00Z" }

/-- A cached row of venue `"w"` with remote id 5. -/
def venueWRow : DbCustomer :=
  { id := 5, first_name := "Old", last_name := "Row", telephone := none, email := none,
    loyalty_member := false, venue_id := "w", synced_at := "t0" }

/-- An incoming customer with the same remote id 5, upserted for venue `"v"`. -/
def venueVCustomer : PosabitCustomer :=
  { id := 5, first_name := "New", last_name := "Row", telephone := none, email := none,
    loyalty_member := false }

/-- A remote directory reporting 250 total customers on 3 total pages,
delivered as the three given pages. -/
def scenarioFetch (cs1 cs2 cs3 : List PosabitCustomer) : FetchOracle := fun p =>
  if p = 1 then .ok { total_records := 250, total_pages := 3, customers := cs1 }
  else if p = 2 then .ok { total_records := 250, total_pages := 3, customers := cs2 }
  else if p = 3 then .ok { total_records := 250, total_pages := 3, customers := cs3 }
  else .error ()

/-- A synthetic remote customer with a given remote id. -/
def mkScenarioCustomer (i : Nat) : PosabitCustomer :=
  { id := i, first_name := "F", last_name := "L", telephone := none, email := none,
    loyalty_member := false }

/-- A concrete first page of 100 customers (ids 0–99). -/
def scenarioPage1 : List PosabitCustomer := (List.range 100).map mkScenarioCustomer

/-- A concrete second page of 100 customers (ids 100–199). -/
def scenarioPage2 : List PosabitCustomer :=
  (List.range 100).map fun i => mkScenarioCustomer (100 + i)

/-- A concrete third page of 50 customers (ids 200–249). -/
def scenarioPage3 : List PosabitCustomer :=
  (List.range 50).map fun i => mkScenarioCustomer (200 + i)

/-- A venue record whose stored phone is formatted with dashes; its
normalized phone is `5095550182`. -/
def dashPhoneRow : DbCustomer :=
  { id := 1, first_name := "Jane", last_name := "Doe", telephone := some "509-555-0182",
    email := none, loyalty_member := false, venue_id := "venue", synced_at := "t0" }

/-- A venue record whose stored phone is the bare digit string. -/
def digitsPhoneRow : DbCustomer :=
  { id := 2, first_name := "Jane", last_name := "Doe", telephone := some "5095550182",
    email := none, loyalty_member := false, venue_id := "venue", synced_at := "t0" }

/-- Outbox entry E1 (oldest). -/
def entryOne : QueueRow :=
  { id := 1, name := "E1", phone := none, method := "phone", customer_id := none,
    venue_id := "venue", created_at := "2026-01-01T00:00:01Z", synced := false }

/-- Outbox entry E2. -/
def entryTwo : QueueRow :=
  { id := 2, name := "E2", phone := none, method := "guest", customer_id := none,
    venue_id := "venue", created_at := "2026-01-01T00:00:02Z", synced := false }

/-- Outbox entry E3 (newest). -/
def entryThree : QueueRow :=
  { id := 3, name := "E3", phone := none, method := "phone", customer_id := none,
    venue_id := "venue", created_at := "2026-01-01T00:00:03Z", synced := false }

/-- An outbox holding E1, E2, E3. -/
def replayQueue : QueueTable := [entryOne, entryTwo, entryThree]

/-- A remote that rejects E2 and accepts everything else. -/
def replaySubmit : QueueRow → Bool := fun e => e.id != 2

/-- An outbox whose only id-1 row is already synced. -/
def syncedQueue : QueueTable := [{ entryOne with synced := true }]

/-!
# Offline-resilient customer sync engine: shallow embedding

Lean model of the customer-cache / sync / offline-outbox core of the
kiosk application, translated from:

* `src/electron/services/sync.ts`   (class `SyncService`, and the bundled
  `database.js` module: `initDatabase`, `upsertCustomers`, `normalizePhone`,
  `getCustomerByPhone`, `getCustomerCount`, `addOfflineQueueEntry`,
  `getUnsyncedEntries`, `markEntrySynced`)
* `src/electron/services/posabit.ts` (class `PosabitService`:
  `fetchCustomers`, `fetchAllCustomers`)
* `src/electron/main.ts`            (IPC handler `add-to-queue`)

SQLite tables are modelled as lists of rows; the wall clock
(`new Date().toISOString()`) is an explicit `String` parameter; remote HTTP
calls are oracles returning `Except` (a thrown error is `.error`).
-/

/-! ## Helper facts and supporting definitions -/

/-- Unfolding: upserting `c :: cs` first replaces by `c`, then continues. -/
theorem upsertCustomers_cons (c : PosabitCustomer) (cs : List PosabitCustomer)
    (venueId now : String) (t : CustomerTable) :
    upsertCustomers (c :: cs) venueId now t =
      upsertCustomers cs venueId now (insertOrReplace t (rowOfCustomer c venueId now)) := rfl

/-- Unfolding: upserting no records is the identity. -/
theorem upsertCustomers_nil (venueId now : String) (t : CustomerTable) :
    upsertCustomers [] venueId now t = t := rfl

/-! ## C1: single-flight guard -/

/-- C1: in every state with `isSyncing = true`, both `fullSync()` (the
`force-sync` entry point) and `incrementalSync()` return without issuing a
single page fetch or progress event, and leave the whole sync state —
`isSyncing`, `progress`, `lastSyncTimestamp` and the cached customer
records — unchanged. -/
theorem single_flight_guard (fetch : FetchOracle) (venueId now : String) (fuel : Nat)
    (s : SyncState) (h : s.isSyncing = true) :
    fullSync fetch venueId now fuel s = some (s, 0, []) ∧
    incrementalSync fetch venueId now fuel s = some (s, 0, []) := by
  constructor <;> simp [fullSync, incrementalSync, h]

/-- C1 witness: the guard at a concrete mid-sync state. -/
theorem single_flight_guard_witness :
    fullSync (fun _ => Except.error ()) "venue" "T" 5 busyState = some (busyState, 0, []) ∧
    incrementalSync (fun _ => Except.error ()) "venue" "T" 5 busyState =
      some (busyState, 0, []) :=
  single_flight_guard (fun _ => Except.error ()) "venue" "T" 5 busyState rfl

/-! ## C2: monotonic checkpoint -/

/-- C2: starting an incremental pass from an idle state with checkpoint
`t0`, if the page loop ends with a caught fetch error the pass completes
with `lastSyncTime` still `t0`; the checkpoint is advanced (to the pass's
current time `now`) exactly when every page fetch of the pass succeeded. -/
theorem incremental_checkpoint_monotone (fetch : FetchOracle) (venueId now t0 : String)
    (fuel : Nat) (s : SyncState) (h1 : s.isSyncing = false) (h2 : s.lastSyncTime = some t0) :
    (∀ t n, incrementalGo fetch venueId now fuel 1 s.customers 0 = some (.failed t n) →
      ∃ s2 k log, incrementalSync fetch venueId now fuel s = some (s2, k, log) ∧
        s2.lastSyncTime = some t0) ∧
    (∀ t n, incrementalGo fetch venueId now fuel 1 s.customers 0 = some (.ok t n) →
      ∃ s2 k log, incrementalSync fetch venueId now fuel s = some (s2, k, log) ∧
        s2.lastSyncTime = some now) := by
  constructor
  · intro t n hgo
    refine ⟨{ s with isSyncing := false, customers := t }, n, [], ?_, ?_⟩
    · simp [incrementalSync, h1, h2, hgo]
    · simpa using h2
  · intro t n hgo
    refine ⟨{ s with
                isSyncing := false
                customerCount := getCustomerCount venueId t
                lastSyncTime := some now
                customers := t }, n, [], ?_, rfl⟩
    simp [incrementalSync, h1, h2, hgo]

/-- C2 witness: a pass whose very first page fetch fails leaves the
checkpoint at `"t0"`. -/
theorem incremental_checkpoint_monotone_witness :
    ∃ s2 k log,
      incrementalSync (fun _ => Except.error ()) "venue" "T" 5 checkpointedState =
        some (s2, k, log) ∧ s2.lastSyncTime = some "t0" :=
  (incremental_checkpoint_monotone (fun _ => Except.error ()) "venue" "T" "t0" 5
      checkpointedState rfl rfl).1 [] 1 rfl

/-! ## C3: full sync buffers, it does not stream -/

/-- C3 counterexample: page 1 of a full sync succeeds and delivers a
record, page 2 fails — yet the cache afterwards is still empty: the
record of the earlier page was NOT persisted before the next page was
requested, because `fetchAllCustomers` buffers every page in memory and
`fullSync` upserts only once, after the whole pagination. -/
theorem full_sync_not_streaming_counterexample :
    fetchOnePageThenFail 1 =
      .ok { total_records := 2, total_pages := 2,
            customers := [{ id := 7, first_name := "A", last_name := "B", telephone := none,
                            email := none, loyalty_member := false }] } ∧
    fetchOnePageThenFail 2 = .error () ∧
    fullSync fetchOnePageThenFail "venue" "T" 5 idleEmptyState =
      some ({ isSyncing := false, lastSyncTime := none, customerCount := 0,
              progress := some (1, 2), customers := [] }, 2, [(1, 2)]) :=
  ⟨rfl, rfl, rfl⟩

/-- C3 amended: during a full sync the fetched pages are buffered in
memory and upserted into the cache in a single batch only after every
page has been fetched; if any page fetch fails, no records from the pass
— the earlier pages included — are persisted, and the cache, the
customer count and `lastSyncTime` are exactly as before the pass. -/
theorem full_sync_single_batch (fetch : FetchOracle) (venueId now : String) (fuel : Nat)
    (s : SyncState) (h : s.isSyncing = false) :
    (∀ log n, fetchAllCustomers fetch fuel = some (.failed log n) →
      ∃ s2 l, fullSync fetch venueId now fuel s = some (s2, n, l) ∧
        s2.customers = s.customers ∧ s2.lastSyncTime = s.lastSyncTime ∧
        s2.customerCount = s.customerCount) ∧
    (∀ cs log n, fetchAllCustomers fetch fuel = some (.ok cs log n) →
      ∃ s2, fullSync fetch venueId now fuel s = some (s2, n, log) ∧
        s2.customers = upsertCustomers cs venueId now s.customers) := by
  constructor
  · intro log n hf
    refine ⟨{ s with isSyncing := false, progress := lastProgress log s.progress },
      log, ?_, rfl, rfl, rfl⟩
    simp [fullSync, h, hf]
  · intro cs log n hf
    refine ⟨{ isSyncing := false
              lastSyncTime := some now
              customerCount := getCustomerCount venueId
                (upsertCustomers cs venueId now s.customers)
              progress := none
              customers := upsertCustomers cs venueId now s.customers }, ?_, rfl⟩
    simp [fullSync, h, hf]

/-- C3 amended witness: the failing two-page remote above, starting from
the idle empty state. -/
theorem full_sync_single_batch_witness :
    ∃ s2 l, fullSync fetchOnePageThenFail "venue" "T" 5 idleEmptyState = some (s2, 2, l) ∧
      s2.customers = idleEmptyState.customers ∧
      s2.lastSyncTime = idleEmptyState.lastSyncTime ∧
      s2.customerCount = idleEmptyState.customerCount :=
  (full_sync_single_batch fetchOnePageThenFail "venue" "T" 5 idleEmptyState rfl).1
    [(1, 2)] 2 rfl

/-! ## C8: live check-in fallback -/

/-- C8: for every check-in request, if no remote client is configured the
handler enqueues the entry offline and replies `{ offline: true }`; if the
remote submission throws it enqueues and replies `{ offline: true, error }`;
if the remote submission succeeds it returns the remote's result and the
outbox is untouched.  The enqueued row is appended with `synced = false`. -/
theorem checkin_offline_fallback {ρ : Type} (svc : Option (QueueEntryData → Except String ρ))
    (d : QueueEntryData) (now : String) (t : QueueTable) :
    (svc = none →
      handleAddToQueue svc d now t = (.offline none, (addOfflineQueueEntry d now t).1)) ∧
    (∀ f e, svc = some f → f d = .error e →
      handleAddToQueue svc d now t = (.offline (some e), (addOfflineQueueEntry d now t).1)) ∧
    (∀ f r, svc = some f → f d = .ok r →
      handleAddToQueue svc d now t = (.result r, t)) ∧
    (∃ row, (addOfflineQueueEntry d now t).1 = t ++ [row] ∧ row.synced = false) := by
  refine ⟨?_, ?_, ?_, ?_⟩
  · intro hnone; simp [handleAddToQueue, hnone]
  · intro f e hsome herr; simp [handleAddToQueue, hsome, herr]
  · intro f r hsome hok; simp [handleAddToQueue, hsome, hok]
  · exact ⟨_, rfl, rfl⟩

/-- C8 witness: the three handler branches at concrete inputs. -/
theorem checkin_offline_fallback_witness :
    handleAddToQueue (none : Option (QueueEntryData → Except String Nat)) sampleCheckIn
      "T" [] = (.offline none, (addOfflineQueueEntry sampleCheckIn "T" []).1) ∧
    handleAddToQueue (some fun _ => (Except.error "boom" : Except String Nat)) sampleCheckIn
      "T" [] = (.offline (some "boom"), (addOfflineQueueEntry sampleCheckIn "T" []).1) ∧
    handleAddToQueue (some fun _ => (Except.ok 42 : Except String Nat)) sampleCheckIn
      "T" [] = (.result 42, []) :=
  ⟨(checkin_offline_fallback none sampleCheckIn "T" []).1 rfl,
   (checkin_offline_fallback (some fun _ => (Except.error "boom" : Except String Nat))
      sampleCheckIn "T" []).2.1 _ "boom" rfl rfl,
   (checkin_offline_fallback (some fun _ => (Except.ok 42 : Except String Nat))
      sampleCheckIn "T" []).2.2.1 _ 42 rfl rfl⟩

/-! ## C10: cross-venue frame effect of upsertBatch -/

/-- C10 failing input: the cache holds venue `"w"`'s row with remote id 5;
`upsertCustomers` of a venue-`"v"` record with the same remote id deletes
venue `"w"`'s row (SQLite `INSERT OR REPLACE` conflicts on the table's
`id INTEGER PRIMARY KEY`, which ignores the venue), leaving venue `"w"`
with no rows — contradicting the spec's `(remoteId, venueId)` keying and
its "never deleted automatically" guarantee. -/
theorem upsert_deletes_other_venue_row :
    getCustomerCount "w" [venueWRow] = 1 ∧
    upsertCustomers [venueVCustomer] "v" "t1" [venueWRow] =
      [rowOfCustomer venueVCustomer "v" "t1"] ∧
    getCustomerCount "w" (upsertCustomers [venueVCustomer] "v" "t1" [venueWRow]) = 0 := by
  exact ⟨rfl, rfl, rfl⟩

/-! ## C4: idempotent upsert -/

/-- Upserting a single record replaces every row with the same remote id. -/
theorem upsertCustomers_singleton (c : PosabitCustomer) (venueId now : String)
    (t : CustomerTable) :
    upsertCustomers [c] venueId now t =
      (t.filter fun q => q.id != c.id) ++ [rowOfCustomer c venueId now] := rfl

/-- Characterization of a batch upsert: the rows whose remote id does not
occur in the batch survive in place, followed by the rows the batch
produces on an empty table. -/
theorem upsertCustomers_eq_append (cs : List PosabitCustomer) (venueId now : String) :
    ∀ t : CustomerTable,
      upsertCustomers cs venueId now t =
        (t.filter fun r => !decide (r.id ∈ cs.map PosabitCustomer.id)) ++
          upsertCustomers cs venueId now [] := by
  induction cs with
  | nil => intro t; simp [upsertCustomers]
  | cons c cs ih =>
    intro t
    rw [upsertCustomers_cons, ih (insertOrReplace t (rowOfCustomer c venueId now))]
    rw [show upsertCustomers (c :: cs) venueId now [] =
          upsertCustomers cs venueId now [rowOfCustomer c venueId now] from rfl]
    rw [ih [rowOfCustomer c venueId now]]
    simp only [insertOrReplace, List.filter_append, List.filter_filter, List.append_assoc]
    congr 1
    apply List.filter_congr
    intro a _
    by_cases h : a.id = c.id <;> simp [h, rowOfCustomer]

/-- Every row produced by upserting into the empty table carries one of
the batch's remote ids. -/
theorem mem_upsertCustomers_id (cs : List PosabitCustomer) (venueId now : String) :
    ∀ (t : CustomerTable) (r : DbCustomer), r ∈ upsertCustomers cs venueId now t →
      r ∈ t ∨ r.id ∈ cs.map PosabitCustomer.id := by
  induction cs with
  | nil => intro t r h; exact Or.inl (by simpa [upsertCustomers] using h)
  | cons c cs ih =>
    intro t r h
    rw [upsertCustomers_cons] at h
    rcases ih _ r h with h2 | h2
    · rcases List.mem_append.1 h2 with h3 | h3
      · exact Or.inl (List.mem_of_mem_filter h3)
      · have h4 : r = rowOfCustomer c venueId now := by simpa using h3
        subst h4
        exact Or.inr (by simp [rowOfCustomer])
    · exact Or.inr (by simp [h2])

/-- The rows left by an upsert into the empty table all carry batch ids. -/
theorem filter_upsertCustomers_nil (cs : List PosabitCustomer) (venueId now : String) :
    (upsertCustomers cs venueId now []).filter
      (fun r => !decide (r.id ∈ cs.map PosabitCustomer.id)) = [] := by
  rw [List.filter_eq_nil_iff]
  intro r hr
  rcases mem_upsertCustomers_id cs venueId now [] r hr with h | h
  · simp at h
  · simp [h]

/-- A batch upsert is idempotent. -/
theorem upsertCustomers_idem (cs : List PosabitCustomer) (venueId now : String)
    (t : CustomerTable) :
    upsertCustomers cs venueId now (upsertCustomers cs venueId now t) =
      upsertCustomers cs venueId now t := by
  rw [upsertCustomers_eq_append cs venueId now (upsertCustomers cs venueId now t),
      upsertCustomers_eq_append cs venueId now t]
  rw [List.filter_append, List.filter_filter, filter_upsertCustomers_nil]
  simp [Bool.and_self]

/-- C4: upserting `[R]` for venue `v` twice leaves exactly one cached row
keyed by `(R.remoteId, v)`, and that row carries R's latest field values;
repeating any `upsertCustomers` call with the same records, venue and
timestamp leaves the cache contents unchanged. -/
theorem upsertBatch_idempotent (cs : List PosabitCustomer) (c : PosabitCustomer)
    (venueId now : String) (t : CustomerTable) :
    upsertCustomers cs venueId now (upsertCustomers cs venueId now t) =
      upsertCustomers cs venueId now t ∧
    (upsertCustomers [c] venueId now (upsertCustomers [c] venueId now t)).filter
      (fun r => r.id == c.id && r.venue_id == venueId) = [rowOfCustomer c venueId now] := by
  refine ⟨upsertCustomers_idem cs venueId now t, ?_⟩
  rw [upsertCustomers_idem [c] venueId now t, upsertCustomers_singleton, List.filter_append,
      List.filter_filter]
  have h1 : (t.filter fun a => a.id == c.id && a.venue_id == venueId && a.id != c.id) = [] := by
    rw [List.filter_eq_nil_iff]
    intro a _
    by_cases h : a.id = c.id <;> simp [h]
  have h2 : ([rowOfCustomer c venueId now].filter
      fun r => r.id == c.id && r.venue_id == venueId) = [rowOfCustomer c venueId now] := by
    simp [rowOfCustomer]
  rw [h1, h2]
  rfl

/-! ## C6: the 100/100/50 full-sync scenario -/

/-- Rows produced by an upsert for venue `v` into a table of venue-`v`
rows all belong to venue `v`. -/
theorem mem_upsertCustomers_venue (cs : List PosabitCustomer) (venueId now : String) :
    ∀ t : CustomerTable, (∀ r ∈ t, r.venue_id = venueId) →
      ∀ r ∈ upsertCustomers cs venueId now t, r.venue_id = venueId := by
  induction cs with
  | nil => intro t ht r hr; exact ht r (by simpa [upsertCustomers] using hr)
  | cons c cs ih =>
    intro t ht r hr
    rw [upsertCustomers_cons] at hr
    refine ih _ ?_ r hr
    intro q hq
    rcases List.mem_append.1 hq with h | h
    · exact ht q (List.mem_of_mem_filter h)
    · have hq2 : q = rowOfCustomer c venueId now := by simpa using h
      subst hq2
      rfl

/-- Upserting a batch of pairwise-distinct remote ids, none already in the
table, grows the table by exactly the batch size. -/
theorem length_upsertCustomers_nodup (cs : List PosabitCustomer) (venueId now : String) :
    (cs.map PosabitCustomer.id).Nodup →
    ∀ t : CustomerTable, (∀ r ∈ t, r.id ∉ cs.map PosabitCustomer.id) →
      (upsertCustomers cs venueId now t).length = t.length + cs.length := by
  induction cs with
  | nil => intro _ t _; simp [upsertCustomers]
  | cons c cs ih =>
    intro hnd t ht
    simp only [List.map_cons, List.nodup_cons] at hnd
    rw [upsertCustomers_cons]
    have hins : insertOrReplace t (rowOfCustomer c venueId now) =
        (t.filter fun q => q.id != c.id) ++ [rowOfCustomer c venueId now] := rfl
    have hfil : (t.filter fun q => q.id != c.id) = t := by
      rw [List.filter_eq_self]
      intro a ha
      have h2 := ht a ha
      simp only [List.map_cons, List.mem_cons, not_or] at h2
      simp [bne_iff_ne, h2.1]
    have ht2 : ∀ r ∈ t ++ [rowOfCustomer c venueId now], r.id ∉ cs.map PosabitCustomer.id := by
      intro r hr
      rcases List.mem_append.1 hr with h | h
      · have h2 := ht r h
        simp only [List.map_cons, List.mem_cons, not_or] at h2
        exact h2.2
      · have hr2 : r = rowOfCustomer c venueId now := by simpa using h
        subst hr2
        simpa [rowOfCustomer] using hnd.1
    rw [hins, hfil]
    rw [ih hnd.2 (t ++ [rowOfCustomer c venueId now]) ht2]
    simp [List.length_append]
    omega

/-- Upserting a batch of pairwise-distinct remote ids into the empty table
leaves the venue with exactly the batch size of rows. -/
theorem getCustomerCount_upsert_empty (cs : List PosabitCustomer) (venueId now : String)
    (hnd : (cs.map PosabitCustomer.id).Nodup) :
    getCustomerCount venueId (upsertCustomers cs venueId now []) = cs.length := by
  unfold getCustomerCount
  have hall := mem_upsertCustomers_venue cs venueId now [] (by simp)
  rw [List.filter_eq_self.mpr (by intro a ha; simpa using hall a ha)]
  have hlen := length_upsertCustomers_nodup cs venueId now hnd [] (by simp)
  simpa using hlen

/-- One successful step of the `fetchAllCustomers` loop. -/
theorem fetchAllGo_ok_step (fetch : FetchOracle) (fuel page : Nat)
    (acc : List PosabitCustomer) (log : List (Nat × Nat)) (n : Nat)
    (resp : CustomerResponse) (h : fetch page = .ok resp) :
    fetchAllGo fetch (fuel + 1) page acc log n =
      if page + 1 ≤ resp.total_pages then
        fetchAllGo fetch fuel (page + 1) (acc ++ resp.customers)
          (log ++ [((acc ++ resp.customers).length, resp.total_records)]) (n + 1)
      else
        some (.ok (acc ++ resp.customers)
          (log ++ [((acc ++ resp.customers).length, resp.total_records)]) (n + 1)) := by
  simp [fetchAllGo, h]

/-- Running `fetchAllCustomers` against the three-page scenario remote:
exactly 3 fetches, progress `(100,250)`, `(200,250)`, `(250,250)`, and the
three pages buffered in order. -/
theorem fetchAllCustomers_scenario (cs1 cs2 cs3 : List PosabitCustomer)
    (h1 : cs1.length = 100) (h2 : cs2.length = 100) (h3 : cs3.length = 50) :
    fetchAllCustomers (scenarioFetch cs1 cs2 cs3) 3 =
      some (.ok ((cs1 ++ cs2) ++ cs3) [(100, 250), (200, 250), (250, 250)] 3) := by
  have f1 : scenarioFetch cs1 cs2 cs3 1 =
      .ok { total_records := 250, total_pages := 3, customers := cs1 } := rfl
  have f2 : scenarioFetch cs1 cs2 cs3 2 =
      .ok { total_records := 250, total_pages := 3, customers := cs2 } := rfl
  have f3 : scenarioFetch cs1 cs2 cs3 3 =
      .ok { total_records := 250, total_pages := 3, customers := cs3 } := rfl
  show fetchAllGo (scenarioFetch cs1 cs2 cs3) (2 + 1) 1 [] [] 0 = _
  rw [fetchAllGo_ok_step _ 2 1 [] [] 0 _ f1]
  simp only [List.nil_append, show (1 + 1 ≤ 3) = True by simp, if_true, h1]
  show fetchAllGo (scenarioFetch cs1 cs2 cs3) (1 + 1) 2 cs1 [(100, 250)] 1 = _
  rw [fetchAllGo_ok_step _ 1 2 cs1 [(100, 250)] 1 _ f2]
  simp only [show (2 + 1 ≤ 3) = True by simp, if_true, List.length_append, h1, h2]
  show fetchAllGo (scenarioFetch cs1 cs2 cs3) (0 + 1) 3 (cs1 ++ cs2)
      [(100, 250), (100 + 100, 250)] 2 = _
  rw [fetchAllGo_ok_step _ 0 3 (cs1 ++ cs2) [(100, 250), (100 + 100, 250)] 2 _ f3]
  simp [List.length_append, h1, h2, h3]

/-- C6: if the remote reports 250 total customers delivered as three pages
of 100, 100 and 50 records with pairwise-distinct remote ids, a full sync
from the idle empty state issues exactly 3 page fetches, reports progress
`(100,250)`, `(200,250)`, `(250,250)` in that order, and afterwards the
venue's customer count is 250. -/
theorem full_sync_scenario (cs1 cs2 cs3 : List PosabitCustomer) (venueId now : String)
    (h1 : cs1.length = 100) (h2 : cs2.length = 100) (h3 : cs3.length = 50)
    (hnd : (((cs1 ++ cs2) ++ cs3).map PosabitCustomer.id).Nodup) :
    ∃ s2 : SyncState,
      fullSync (scenarioFetch cs1 cs2 cs3) venueId now 3 idleEmptyState =
        some (s2, 3, [(100, 250), (200, 250), (250, 250)]) ∧
      getCustomerCount venueId s2.customers = 250 := by
  have hfa := fetchAllCustomers_scenario cs1 cs2 cs3 h1 h2 h3
  refine ⟨{ isSyncing := false
            lastSyncTime := some now
            customerCount := getCustomerCount venueId
              (upsertCustomers ((cs1 ++ cs2) ++ cs3) venueId now [])
            progress := none
            customers := upsertCustomers ((cs1 ++ cs2) ++ cs3) venueId now [] }, ?_, ?_⟩
  · simp [fullSync, idleEmptyState, hfa]
  · rw [getCustomerCount_upsert_empty _ _ _ hnd]
    simp [List.length_append, h1, h2, h3]

set_option maxRecDepth 20000 in
/-- C6 witness: the scenario at concrete pages with ids 0–249. -/
theorem full_sync_scenario_witness :
    ∃ s2 : SyncState,
      fullSync (scenarioFetch scenarioPage1 scenarioPage2 scenarioPage3) "venue" "T" 3
          idleEmptyState =
        some (s2, 3, [(100, 250), (200, 250), (250, 250)]) ∧
      getCustomerCount "venue" s2.customers = 250 :=
  full_sync_scenario scenarioPage1 scenarioPage2 scenarioPage3 "venue" "T"
    (by decide) (by decide) (by decide) (by decide)

/-! ## C5: phone lookup matches the raw stored string, not the
normalized one -/

/-- C5 counterexample: the input normalizes to `5095550182`, and the
stored record's *normalized* phone ends with that suffix, yet the lookup
returns `none` — the SQL `LIKE '%suffix'` runs against the raw stored
string `509-555-0182`, which does not end with the digit suffix. -/
theorem findByPhone_normalized_counterexample :
    normalizePhone "+1 (509) 555-0182" = "5095550182" ∧
    normalizePhone "509-555-0182" = "5095550182" ∧
    telLike (some (normalizePhone "509-555-0182")) (normalizePhone "+1 (509) 555-0182") = true ∧
    getCustomerByPhone "+1 (509) 555-0182" "venue" [dashPhoneRow] = none := by
  exact ⟨by decide, by decide, by decide, by decide⟩

/-- C5 amended: `findByPhone(p, v)` normalizes `p` to its trailing 10
digits and returns a record of venue `v` whose *raw stored* phone string
ends with that digit suffix (`null` exactly when no venue-`v` record's raw
phone does); in particular `findByPhone("+1 (509) 555-0182", v)` returns a
stored venue-`v` record whose phone is `"5095550182"`. -/
theorem findByPhone_raw_suffix (p venueId : String) (t : CustomerTable) :
    (∀ r, getCustomerByPhone p venueId t = some r →
      r ∈ t ∧ r.venue_id = venueId ∧ telLike r.telephone (normalizePhone p) = true) ∧
    (getCustomerByPhone p venueId t = none ↔
      ∀ r ∈ t, r.venue_id = venueId → telLike r.telephone (normalizePhone p) = false) ∧
    (∀ r : DbCustomer, r.venue_id = venueId → r.telephone = some "5095550182" →
      normalizePhone p = "5095550182" → getCustomerByPhone p venueId [r] = some r) := by
  refine ⟨?_, ?_, ?_⟩
  · intro r h
    have hm : r ∈ t.filter
        (fun r => telLike r.telephone (normalizePhone p) && r.venue_id == venueId) :=
      List.mem_of_mem_head? (by simp [getCustomerByPhone] at h; simp [h])
    have hm2 := List.mem_filter.1 hm
    refine ⟨hm2.1, ?_, ?_⟩
    · have := hm2.2
      simp only [Bool.and_eq_true, beq_iff_eq] at this
      exact this.2
    · have := hm2.2
      simp only [Bool.and_eq_true] at this
      exact this.1
  · simp only [getCustomerByPhone, List.head?_eq_none_iff, List.filter_eq_nil_iff,
      Bool.and_eq_true, beq_iff_eq, not_and, Bool.not_eq_true]
    constructor
    · intro h r hr hv
      by_cases hc : telLike r.telephone (normalizePhone p) = true
      · exact absurd hv (h r hr hc)
      · simpa using hc
    · intro h r hr htel hv
      have := h r hr hv
      rw [htel] at this
      cases this
  · intro r hv htel hnp
    have hsuf : telLike r.telephone (normalizePhone p) = true := by
      rw [htel, hnp]
      decide
    simp [getCustomerByPhone, hsuf, hv]

/-- C5 amended witness: the lookup at the spec's example input finds the
digit-stored record. -/
theorem findByPhone_raw_suffix_witness :
    getCustomerByPhone "+1 (509) 555-0182" "venue" [digitsPhoneRow] = some digitsPhoneRow :=
  (findByPhone_raw_suffix "+1 (509) 555-0182" "venue" [digitsPhoneRow]).2.2 digitsPhoneRow
    rfl rfl (by decide)

/-! ## C7 and C9: outbox replay and marking -/

/-- The unsynced listing is sorted ascending by `created_at`. -/
theorem getUnsyncedEntries_sorted (venueId : String) (t : QueueTable) :
    List.Pairwise (fun a b : QueueRow => a.created_at ≤ b.created_at)
      (getUnsyncedEntries venueId t) := by
  unfold getUnsyncedEntries
  refine List.Pairwise.imp ?_
    (List.sorted_mergeSort ?_ ?_ (t.filter fun e => e.venue_id == venueId && e.synced == false))
  · intro a b h
    exact of_decide_eq_true h
  · intro a b c hab hbc
    simp only [decide_eq_true_eq] at hab hbc ⊢
    exact le_trans hab hbc
  · intro a b
    simp only [Bool.or_eq_true, decide_eq_true_eq]
    exact le_total _ _

/-- Every listed unsynced entry is a table row of the venue with
`synced = false`. -/
theorem mem_getUnsyncedEntries (venueId : String) (t : QueueTable) :
    ∀ e ∈ getUnsyncedEntries venueId t, e ∈ t ∧ e.venue_id = venueId ∧ e.synced = false := by
  intro e he
  unfold getUnsyncedEntries at he
  have h2 : e ∈ t.filter fun e => e.venue_id == venueId && e.synced == false :=
    (List.mergeSort_perm _ _).mem_iff.mp he
  have h3 := List.mem_filter.1 h2
  refine ⟨h3.1, ?_, ?_⟩
  · have := h3.2
    simp only [Bool.and_eq_true, beq_iff_eq] at this
    exact this.1
  · have := h3.2
    simp only [Bool.and_eq_true, beq_iff_eq] at this
    exact this.2

/-- After `markEntrySynced i`, every row with id `i` is synced. -/
theorem markEntrySynced_synced (i : Nat) (q : QueueTable) :
    ∀ r ∈ markEntrySynced i q, r.id = i → r.synced = true := by
  intro r hr hid
  unfold markEntrySynced at hr
  rcases List.mem_map.1 hr with ⟨e, he, heq⟩
  by_cases h : e.id = i
  · rw [if_pos h] at heq
    rw [← heq]
  · rw [if_neg h] at heq
    rw [← heq] at hid
    exact absurd hid h

/-- `markEntrySynced j` never un-syncs a row. -/
theorem markEntrySynced_preserves (i j : Nat) (q : QueueTable)
    (hq : ∀ r ∈ q, r.id = i → r.synced = true) :
    ∀ r ∈ markEntrySynced j q, r.id = i → r.synced = true := by
  intro r hr hid
  rcases List.mem_map.1 hr with ⟨e, he, heq⟩
  by_cases h : e.id = j
  · rw [if_pos h] at heq
    rw [← heq]
  · rw [if_neg h] at heq
    subst heq
    exact hq e he hid

/-- `markEntrySynced i` is a no-op on a table whose id-`i` rows are
already synced. -/
theorem markEntrySynced_noop (i : Nat) :
    ∀ q : QueueTable, (∀ e ∈ q, e.id = i → e.synced = true) → markEntrySynced i q = q := by
  intro q
  induction q with
  | nil => intro _; rfl
  | cons e q ih =>
    intro hq
    have ht : (if e.id = i then { e with synced := true } else e) = e := by
      by_cases h : e.id = i
      · rw [if_pos h]
        have hs := hq e (by simp) h
        rcases e with ⟨a, b, c, d, f2, g, h2, s⟩
        simp only at hs
        simp [hs]
      · rw [if_neg h]
    simp only [markEntrySynced, List.map_cons]
    rw [ht]
    have ih2 := ih fun x hx => hq x (List.mem_cons_of_mem _ hx)
    simpa [markEntrySynced] using ih2

/-- The ids logged by the replay fold are the submitted entries' ids, in
traversal order. -/
theorem replayFold_log (submit : QueueRow → Bool) :
    ∀ (l : List QueueRow) (q : QueueTable) (log : List Nat),
      (l.foldl (fun acc e =>
          if submit e then (markEntrySynced e.id acc.1, acc.2 ++ [e.id]) else acc)
        (q, log)).2 = log ++ (l.filter submit).map QueueRow.id := by
  intro l
  induction l with
  | nil => intro q log; simp
  | cons e l ih =>
    intro q log
    by_cases h : submit e
    · simp only [List.foldl_cons, if_pos h, List.filter_cons, h, if_true]
      rw [ih]
      simp
    · simp only [List.foldl_cons, if_neg h, List.filter_cons, h]
      rw [ih]
      simp [h]

/-- The replay fold keeps rows with an already-synced id synced. -/
theorem replayFold_synced (submit : QueueRow → Bool) (i : Nat) :
    ∀ (l : List QueueRow) (q : QueueTable) (log : List Nat),
      (∀ r ∈ q, r.id = i → r.synced = true) →
      ∀ r ∈ (l.foldl (fun acc e =>
          if submit e then (markEntrySynced e.id acc.1, acc.2 ++ [e.id]) else acc)
        (q, log)).1, r.id = i → r.synced = true := by
  intro l
  induction l with
  | nil => intro q log hq; simpa using hq
  | cons e l ih =>
    intro q log hq
    by_cases h : submit e
    · simp only [List.foldl_cons, if_pos h]
      exact ih _ _ (markEntrySynced_preserves i e.id q hq)
    · simp only [List.foldl_cons, if_neg h]
      exact ih _ _ hq

/-- Every successfully submitted entry of the traversal ends up synced in
the final table. -/
theorem replayFold_marks (submit : QueueRow → Bool) :
    ∀ (l : List QueueRow) (q : QueueTable) (log : List Nat) (e : QueueRow),
      e ∈ l → submit e = true →
      ∀ r ∈ (l.foldl (fun acc e =>
          if submit e then (markEntrySynced e.id acc.1, acc.2 ++ [e.id]) else acc)
        (q, log)).1, r.id = e.id → r.synced = true := by
  intro l
  induction l with
  | nil => intro q log e he; cases he
  | cons a l ih =>
    intro q log e he hs
    rcases List.mem_cons.1 he with rfl | he2
    · simp only [List.foldl_cons, if_pos hs]
      exact replayFold_synced submit e.id l _ _ (markEntrySynced_synced e.id q)
    · by_cases h : submit a
      · simp only [List.foldl_cons, if_pos h]
        exact ih _ _ e he2 hs
      · simp only [List.foldl_cons, if_neg h]
        exact ih _ _ e he2 hs

/-- C7: a replay pass processes the venue's unsynced outbox entries in
ascending `createdAt` order; the entries marked synced are exactly the
successfully submitted ones, marked in that same FIFO order; a failing
entry is skipped while every remaining entry is still attempted, and each
successfully submitted entry's row is synced afterwards. -/
theorem replay_fifo (submit : QueueRow → Bool) (venueId : String) (t : QueueTable) :
    List.Pairwise (fun a b : QueueRow => a.created_at ≤ b.created_at)
      (getUnsyncedEntries venueId t) ∧
    (syncOfflineQueue submit venueId t).2 =
      ((getUnsyncedEntries venueId t).filter submit).map QueueRow.id ∧
    (∀ e ∈ getUnsyncedEntries venueId t, submit e = true →
      ∀ r ∈ (syncOfflineQueue submit venueId t).1, r.id = e.id → r.synced = true) := by
  refine ⟨getUnsyncedEntries_sorted venueId t, ?_, ?_⟩
  · unfold syncOfflineQueue
    rw [replayFold_log submit (getUnsyncedEntries venueId t) t []]
    simp
  · intro e he hs r hr hid
    unfold syncOfflineQueue at hr
    exact replayFold_marks submit (getUnsyncedEntries venueId t) t [] e he hs r hr hid

/-- Concrete string comparisons decide through `toList`. -/
theorem strLe_decide {a b : String} (h : a.toList ≤ b.toList) : decide (a ≤ b) = true :=
  decide_eq_true (String.le_iff_toList_le.mpr h)

/-- The three concrete entries are pairwise ordered by `created_at`. -/
theorem replayQueue_pairwise :
    List.Pairwise (fun a b : QueueRow => decide (a.created_at ≤ b.created_at) = true)
      replayQueue := by
  have p12 : decide (entryOne.created_at ≤ entryTwo.created_at) = true :=
    strLe_decide (by decide)
  have p13 : decide (entryOne.created_at ≤ entryThree.created_at) = true :=
    strLe_decide (by decide)
  have p23 : decide (entryTwo.created_at ≤ entryThree.created_at) = true :=
    strLe_decide (by decide)
  rw [show replayQueue = [entryOne, entryTwo, entryThree] from rfl]
  refine List.Pairwise.cons ?_ (List.Pairwise.cons ?_ ?_)
  · intro b hb
    rcases List.mem_cons.1 hb with rfl | hb2
    · exact p12
    · rcases List.mem_cons.1 hb2 with rfl | hb3
      · exact p13
      · exact absurd hb3 (List.not_mem_nil _)
  · intro b hb
    rcases List.mem_cons.1 hb with rfl | hb2
    · exact p23
    · exact absurd hb2 (List.not_mem_nil _)
  · exact List.Pairwise.cons (fun b hb => absurd hb (List.not_mem_nil _)) List.Pairwise.nil

/-- Evaluating the unsynced listing of the concrete three-entry outbox:
the rows are already in `created_at` order. -/
theorem getUnsyncedEntries_replayQueue :
    getUnsyncedEntries "venue" replayQueue = replayQueue := by
  unfold getUnsyncedEntries
  rw [show (replayQueue.filter fun e => e.venue_id == "venue" && e.synced == false) =
        replayQueue from rfl]
  exact List.mergeSort_of_sorted replayQueue_pairwise

/-- C7 witness: with E2 failing, the pass still marks E1 then E3, in
ascending `created_at` order, and E1's row is synced afterwards. -/
theorem replay_fifo_witness :
    (syncOfflineQueue replaySubmit "venue" replayQueue).2 = [1, 3] ∧
    List.Pairwise (fun a b : QueueRow => a.created_at ≤ b.created_at)
      (getUnsyncedEntries "venue" replayQueue) ∧
    { entryOne with synced := true }.synced = true :=
  ⟨((replay_fifo replaySubmit "venue" replayQueue).2.1).trans
     (by rw [getUnsyncedEntries_replayQueue]; decide),
   (replay_fifo replaySubmit "venue" replayQueue).1,
   (replay_fifo replaySubmit "venue" replayQueue).2.2 entryOne
     (by rw [getUnsyncedEntries_replayQueue]; decide) (by decide)
     { entryOne with synced := true }
     (by simp only [syncOfflineQueue, getUnsyncedEntries_replayQueue]; decide) rfl⟩

/-- C9: `markEntrySynced` is idempotent — marking an entry that is already
synced (in particular marking the same id twice) leaves the outbox
unchanged — no listed unsynced entry is ever synced, and once an entry's
id has been marked no entry with that id appears in the unsynced listing
again, so it is never replayed. -/
theorem markOutboxSynced_idempotent (q : QueueTable) (i : Nat) (venueId : String) :
    markEntrySynced i (markEntrySynced i q) = markEntrySynced i q ∧
    ((∀ e ∈ q, e.id = i → e.synced = true) → markEntrySynced i q = q) ∧
    (∀ e ∈ getUnsyncedEntries venueId q, e.synced = false) ∧
    (∀ e ∈ getUnsyncedEntries venueId (markEntrySynced i q), e.id ≠ i) := by
  refine ⟨?_, markEntrySynced_noop i q, ?_, ?_⟩
  · exact markEntrySynced_noop i (markEntrySynced i q) (markEntrySynced_synced i q)
  · intro e he
    exact (mem_getUnsyncedEntries venueId q e he).2.2
  · intro e he hid
    have h3 := mem_getUnsyncedEntries venueId (markEntrySynced i q) e he
    have h4 := markEntrySynced_synced i q e h3.1 hid
    rw [h3.2.2] at h4
    cases h4

/-- Evaluating the unsynced listing after marking id 1 in the concrete
outbox. -/
theorem getUnsyncedEntries_markedQueue :
    getUnsyncedEntries "venue" (markEntrySynced 1 replayQueue) = [entryTwo, entryThree] := by
  unfold getUnsyncedEntries
  rw [show ((markEntrySynced 1 replayQueue).filter
        fun e => e.venue_id == "venue" && e.synced == false) = [entryTwo, entryThree] from rfl]
  have p23 : decide (entryTwo.created_at ≤ entryThree.created_at) = true :=
    strLe_decide (by decide)
  refine List.mergeSort_of_sorted (List.Pairwise.cons ?_ ?_)
  · intro b hb
    rcases List.mem_cons.1 hb with rfl | hb2
    · exact p23
    · exact absurd hb2 (List.not_mem_nil _)
  · exact List.Pairwise.cons (fun b hb => absurd hb (List.not_mem_nil _)) List.Pairwise.nil

/-- C9 witness: re-marking the already-synced id-1 entry is a no-op, and
after marking id 1 in the three-entry outbox no listed unsynced entry has
id 1. -/
theorem markOutboxSynced_idempotent_witness :
    markEntrySynced 1 syncedQueue = syncedQueue ∧ entryTwo.id ≠ 1 :=
  ⟨(markOutboxSynced_idempotent syncedQueue 1 "venue").2.1 (by decide),
   (markOutboxSynced_idempotent replayQueue 1 "venue").2.2.2 entryTwo
     (by rw [getUnsyncedEntries_markedQueue]; decide)⟩

